import Mathlib

/-
Verification of the lifted upload-queue engine
(src/lifted/upload.py and src/lifted/queue.py).

The Python code is shallowly embedded: the mutable `Upload` object becomes an
immutable record, a mutating method becomes a function from the old record to
the new one, a method that can raise returns `Except`, and the persistence
side effect of `status_callback` (which is always either `None` or
`_write_upload cfg`, pickling the record under its uuid in the queue
directory) is made explicit by returning the chronological list of record
snapshots handed to the callback.  The on-disk queue directory becomes an
association list from file name to file content, where the content is either
a successfully unpickled `Upload` or a corrupt/partially-written pickle.
-/

namespace Lifted

/-- lifted/upload.py `UploadStatus`: uploads start as WAITING, become READY
when they get an image_path, then RUNNING, then FINISHED, FAILED, or
CANCELLED. -/
inductive UploadStatus where
  | WAITING
  | READY
  | RUNNING
  | FINISHED
  | FAILED
  | CANCELLED
deriving DecidableEq

/-- The `.value` string of an `UploadStatus` member. -/
def statusValue : UploadStatus → String
  | .WAITING => "WAITING"
  | .READY => "READY"
  | .RUNNING => "RUNNING"
  | .FINISHED => "FINISHED"
  | .FAILED => "FAILED"
  | .CANCELLED => "CANCELLED"

/-- lifted/upload.py `Upload`: the persisted record of one upload job.
Fields mirror the attributes assigned in `Upload.__init__` and mutated by the
methods.  `error` holds `str`-able exception data, modelled as the message
string; `upload_pid` is the worker process id recorded by `execute`;
`upload_log` is the append-only log string grown by `_log`. -/
structure Upload where
  uuid : String
  cloud_image_name : String
  settings : List (String × String)
  creation_time : Nat
  upload_log : String
  error : Option String
  image_path : Option String
  upload_pid : Option Nat
  status : UploadStatus
deriving DecidableEq

/-- Errors raised (as Python `RuntimeError`) by the `Upload` methods.  Each
constructor corresponds to one `raise` site in lifted/upload.py; the Python
message text is given in the comments. -/
inductive UploadOpError where
  /-- RuntimeError raised by `cancel` when the status is not cancellable. -/
  | notCancellable (status : UploadStatus)
  /-- RuntimeError raised by `reset` when the status is still cancellable. -/
  | cannotResetStatus (status : UploadStatus)
  /-- RuntimeError raised by `reset` when no image has been supplied yet. -/
  | cannotResetNoImage
  /-- RuntimeError raised by `execute` when the status is not READY. -/
  | notReady
deriving DecidableEq

/-- lifted/upload.py `Upload._log`: appends the message plus a newline to
`upload_log` (the `LOG.info` side channel is not part of the record). -/
def Upload.log_append (u : Upload) (message : String) : Upload :=
  { u with upload_log := u.upload_log ++ message ++ "\n" }

/-- lifted/upload.py `Upload.set_status`: sets `status` and, when a callback
was supplied (`cb = true`), hands the updated record to it.  The callback in
the code is always the queue's write callback, so the second component is the
list of record snapshots persisted to the store by this call. -/
def set_status (u : Upload) (s : UploadStatus) (cb : Bool) : Upload × List Upload :=
  let u1 := { u with status := s }
  (u1, if cb then [u1] else [])

/-- lifted/upload.py `Upload.ready`: unconditionally assigns `image_path`,
then transitions to READY only when the current status is WAITING.  Note that
the method raises nothing and performs the `image_path` assignment before the
status check. -/
def ready (u : Upload) (image_path : String) (cb : Bool) : Upload × List Upload :=
  let u1 := { u with image_path := some image_path }
  if u1.status = UploadStatus.WAITING then set_status u1 UploadStatus.READY cb
  else (u1, [])

/-- lifted/upload.py `Upload.is_cancellable`: the status is one of WAITING,
READY, RUNNING. -/
def is_cancellable (u : Upload) : Bool :=
  match u.status with
  | .WAITING | .READY | .RUNNING => true
  | _ => false

/-- Python truthiness of `self.image_path`: falsy when `None` or the empty
string (used by `reset`'s `if not self.image_path`). -/
def falsy_path : Option String → Bool
  | none => true
  | some s => s = ""

/-- lifted/upload.py `Upload.cancel`: raises when not cancellable; otherwise
sends SIGINT to `upload_pid` when one is set (returned as the `Bool`
"signalled" component) and transitions to CANCELLED. -/
def cancel (u : Upload) (cb : Bool) :
    Except UploadOpError (Upload × Bool × List Upload) :=
  if is_cancellable u = false then .error (.notCancellable u.status)
  else
    let signalled := u.upload_pid.isSome
    let r := set_status u UploadStatus.CANCELLED cb
    .ok (r.1, signalled, r.2)

/-- lifted/upload.py `Upload.reset`: raises when still cancellable or when no
image has been supplied; otherwise clears `error`, logs "Resetting...", and
transitions back to READY. -/
def reset (u : Upload) (cb : Bool) : Except UploadOpError (Upload × List Upload) :=
  if is_cancellable u = true then .error (.cannotResetStatus u.status)
  else if falsy_path u.image_path then .error .cannotResetNoImage
  else
    let u1 := { u with error := none }
    let u2 := u1.log_append "Resetting..."
    let r := set_status u2 UploadStatus.READY cb
    .ok r

/-- Outcome of the abstract `_upload` body run by `execute`: normal return,
or a raised exception carrying its message (`str(error)`) and the traceback
text (`traceback.format_exc()`). -/
inductive TaskOutcome where
  | success
  | failure (message : String) (tb : String)
deriving DecidableEq

/-- lifted/upload.py `Upload.execute`: raises when the status is not READY;
otherwise records the worker pid, transitions to RUNNING, runs `_upload`, and
transitions to FINISHED on normal return.  Any exception from the body is
caught (never re-raised): its message and traceback are appended to the log,
the exception is stored in `error`, and the status becomes FAILED. -/
def execute (u : Upload) (pid : Nat) (outcome : TaskOutcome) (cb : Bool) :
    Except UploadOpError (Upload × List Upload) :=
  if u.status ≠ UploadStatus.READY then .error .notReady
  else
    let u1 := { u with upload_pid := some pid }
    let r1 := set_status u1 UploadStatus.RUNNING cb
    match outcome with
    | .success =>
        let r2 := set_status r1.1 UploadStatus.FINISHED cb
        .ok (r2.1, r1.2 ++ r2.2)
    | .failure message tb =>
        let u2 := r1.1.log_append (message ++ ": " ++ tb)
        let u3 := { u2 with error := some message }
        let r2 := set_status u3 UploadStatus.FAILED cb
        .ok (r2.1, r1.2 ++ r2.2)

/-- Content of one file in the upload_queue directory as seen by
`pickle.load`, under the working assumption that every file present either
unpickles successfully or fails with `pickle.UnpicklingError` — the only
unpickling exception `get_upload` catches.  A file whose unpickling raises a
different exception (CPython raises `EOFError` for an empty or
boundary-truncated pickle) is outside this model; such files are covered by
`RawFile` below, and `get_upload` does not catch their error, so the
`Store`-based definitions describe the engine on directories free of them. -/
inductive FileState where
  | good (u : Upload)
  | corrupt
deriving DecidableEq

/-- The upload_queue directory: an association list from file name to file
content.  `_write_upload` keys files by `upload.uuid`, so in every store the
engine itself produces the file name equals the record's uuid and names are
distinct; theorems that need those facts take them as hypotheses. -/
abbrev Store := List (String × FileState)

/-- Look a file up by name (the unique entry under distinct names). -/
def lookupFile : Store → String → Option FileState
  | [], _ => none
  | (k, fs) :: rest, uuid => if k = uuid then some fs else lookupFile rest uuid

/-- Errors surfaced by the read path of lifted/queue.py.  `notFound` and
`corruptFile` are the two `raise RuntimeError` sites of `get_upload` ("Could
not find upload {uuid}!" from `FileNotFoundError`, "Could not parse upload
{uuid}!" from `pickle.UnpicklingError`).  `uncaughtEOF` is not a raise site:
it is the raw exception (CPython's `EOFError`, "Ran out of input", from
`pickle.load` on an empty or boundary-truncated file) that `get_upload`'s
`except` clauses do not name, so it propagates to the caller unwrapped and
independent of the ignore flags. -/
inductive QueueError where
  | notFound (uuid : String)
  | corruptFile (uuid : String)
  | uncaughtEOF (uuid : String)
deriving DecidableEq

/-- lifted/queue.py `get_upload`: opens and unpickles the file for `uuid`.
A missing file raises `notFound` unless `ignore_missing`; a failed unpickle
raises `corruptFile` unless `ignore_corrupt`; a swallowed error yields
`None`. -/
def get_upload (store : Store) (uuid : String) (ignore_missing ignore_corrupt : Bool) :
    Except QueueError (Option Upload) :=
  match lookupFile store uuid with
  | some (.good u) => .ok (some u)
  | some .corrupt =>
      if ignore_corrupt then .ok none else .error (.corruptFile uuid)
  | none =>
      if ignore_missing then .ok none else .error (.notFound uuid)

/-- lifted/queue.py `get_uploads`: reads each uuid with both ignore flags set
and keeps the non-`None` results (`filter(None, uploads)`), in order. -/
def get_uploads (store : Store) : List String → Except QueueError (List Upload)
  | [] => .ok []
  | uuid :: rest =>
      match get_upload store uuid true true, get_uploads store rest with
      | .ok o, .ok l => .ok (o.toList ++ l)
      | .error e, _ => .error e
      | .ok _, .error e => .error e

/-- lifted/queue.py `_list_upload_uuids`: the base names of all files in the
queue directory. -/
def list_upload_uuids (store : Store) : List String :=
  store.map Prod.fst

/-- lifted/queue.py `get_all_uploads`. -/
def get_all_uploads (store : Store) : Except QueueError (List Upload) :=
  get_uploads store (list_upload_uuids store)

/-- lifted/queue.py `_write_upload`: creates the file named `upload.uuid` if
absent and replaces its content with the pickle of the record. -/
def write_upload (store : Store) (u : Upload) : Store :=
  if (lookupFile store u.uuid).isSome then
    store.map fun p => if p.1 = u.uuid then (p.1, FileState.good u) else p
  else
    store ++ [(u.uuid, FileState.good u)]

/-- Apply a chronological list of callback snapshots to the store, the way
`_write_callback cfg` persists each record handed to it. -/
def apply_writes (store : Store) (ws : List Upload) : Store :=
  ws.foldl write_upload store

/-- The loop body of the Supervisor pass: a RUNNING upload gets
`set_status(FAILED, _write_callback(cfg))`, whose callback snapshots are
applied to the store; any other upload is skipped. -/
def supervisor_step (st : Store) (u : Upload) : Store :=
  if u.status = UploadStatus.RUNNING then
    apply_writes st (set_status u UploadStatus.FAILED true).2
  else st

/-- The Supervisor pass at the start of lifted/queue.py `monitor`: for every
upload read back from the queue directory whose status is RUNNING, call
`set_status FAILED` with the write callback.  Nothing else in the store is
touched (the `.error` branch is unreachable: reads ignore missing and corrupt
files). -/
def supervisor_pass (store : Store) : Store :=
  match get_all_uploads store with
  | .error _ => store
  | .ok ups => ups.foldl supervisor_step store

/-- Stable insertion of an upload into a list sorted by `creation_time`
ascending, modelling Python's `sorted(key=attrgetter("creation_time"))`. -/
def insertByCreation (u : Upload) : List Upload → List Upload
  | [] => [u]
  | v :: rest =>
      if u.creation_time < v.creation_time then u :: v :: rest
      else v :: insertByCreation u rest

/-- Sort uploads by `creation_time` ascending. -/
def sortByCreation : List Upload → List Upload
  | [] => []
  | u :: rest => insertByCreation u (sortByCreation rest)

/-- Body of the Dispatcher's per-upload check: an upload that is READY and
whose uuid is not in the claimed set is claimed (`pool_uuids.add`) and
submitted (`pool.apply_async`); anything else is skipped.  The accumulator is
the claimed set paired with the uuids submitted so far this tick. -/
def tick_step (acc : List String × List String) (u : Upload) :
    List String × List String :=
  if u.status = UploadStatus.READY ∧ ¬ acc.1.contains u.uuid then
    (u.uuid :: acc.1, acc.2 ++ [u.uuid])
  else acc

/-- One iteration of the Dispatcher loop body in lifted/queue.py `monitor`:
walk the uploads sorted by creation time; each one that is READY and whose
uuid is not in the claimed set `pool_uuids` is claimed and submitted to the
pool.  Returns the new claimed set and the uuids submitted this tick, in
submission order. -/
def dispatcher_tick (ups : List Upload) (pool_uuids : List String) :
    List String × List String :=
  (sortByCreation ups).foldl tick_step (pool_uuids, [])

/-- An event observed by the Dispatcher's claimed set: either one tick of the
poll loop over a snapshot of the store's uploads, or the pool reporting
completion of a job, whose `remover` callback runs
`pool_uuids.remove(uuid)`. -/
inductive PoolEvent where
  | tick (ups : List Upload)
  | completion (uuid : String)

/-- Effect of one event on the claimed set; the second component lists the
uuids submitted to the pool by the event. -/
def pool_step (pool_uuids : List String) : PoolEvent → List String × List String
  | .tick ups => dispatcher_tick ups pool_uuids
  | .completion uuid => (pool_uuids.erase uuid, [])

/-- Remove the file named `uuid` from the queue directory (`os.remove`). -/
def eraseFile (store : Store) (uuid : String) : Store :=
  store.filter fun p => p.1 ≠ uuid

/-- lifted/queue.py `delete_upload`: reads the upload with no ignore flags
(so a missing file raises `notFound` and a corrupt one `corruptFile`), then
`if upload and upload.is_cancellable(): upload.cancel()` — cancelling the
in-memory copy with no status callback, signalling the worker pid when one is
set — and finally removes the file.  The `Bool` result records whether a
SIGINT was sent. -/
def delete_upload (store : Store) (uuid : String) :
    Except QueueError (Store × Bool) :=
  match get_upload store uuid false false with
  | .error e => .error e
  | .ok uOpt =>
      let signalled :=
        match uOpt with
        | some u => is_cancellable u && u.upload_pid.isSome
        | none => false
      .ok (eraseFile store uuid, signalled)

/-- stat.S_IROTH: the others-read permission bit. -/
def S_IROTH : Nat := 4

/-- stat.S_IRGRP: the group-read permission bit. -/
def S_IRGRP : Nat := 32

/-- lifted/queue.py `_get_upload_path` (run by `_write_upload` before every
write): `os.chmod(path, current & ~stat.S_IROTH)`.  For a permission mode
below 2^12, Python's `current & ~4` equals `current &&& 4091`
(4091 = 0o7773, every permission bit except S_IROTH). -/
def chmod_after_write (current : Nat) : Nat :=
  current &&& 4091

/-- Python positional-argument binding: a call passing `supplied` positional
arguments to a function whose positional parameters number between `required`
and `maxAccepted` raises `TypeError` unless `required ≤ supplied ≤
maxAccepted`. -/
def call_binds (required maxAccepted supplied : Nat) : Bool :=
  required ≤ supplied && supplied ≤ maxAccepted

/-- Positional parameters of lifted/providers.py `validate_settings`:
`(cfg, provider_name, settings)`. -/
def validate_settings_param_count : Nat := 3

/-- Positional arguments passed by lifted/queue.py `create_upload` to
`validate_settings`: `(cfg, provider_name, settings, image_name)`. -/
def create_upload_validate_arg_count : Nat := 4

/-- Required positional parameters of lifted/upload.py `Upload.__init__`
beyond `self`: `cloud_image_name`, `settings`. -/
def upload_init_required_param_count : Nat := 2

/-- Maximum positional parameters of lifted/upload.py `Upload.__init__`
beyond `self`: `cloud_image_name`, `settings`, `status_callback`. -/
def upload_init_max_param_count : Nat := 3

/-- Arguments passed by lifted/queue.py `create_upload` to the `Upload`
constructor: `(image_name, provider_name, resolve_playbook_path(...),
settings, _write_callback(cfg))`. -/
def create_upload_init_arg_count : Nat := 5

/-- Errors surfaced by `create_upload`: a `ValueError`/`RuntimeError` from
settings validation, or a `TypeError` from a call that does not bind. -/
inductive CreateError where
  | validationFailed
  | typeError
deriving DecidableEq

/-- The body of lifted/upload.py `Upload.__init__` given already-validated
settings: assigns a fresh uuid and creation timestamp, empty log, no error,
no image path, no pid, and finishes with `set_status(WAITING,
status_callback)` (the first assignment of `status`). -/
def upload_init (image_name : String) (settings : List (String × String))
    (uuid : String) (now : Nat) (cb : Bool) : Upload × List Upload :=
  let u : Upload :=
    { uuid := uuid
      cloud_image_name := image_name
      settings := settings
      creation_time := now
      upload_log := ""
      error := none
      image_path := none
      upload_pid := none
      status := UploadStatus.WAITING }
  set_status u UploadStatus.WAITING cb

/-- lifted/queue.py `create_upload`: first calls
`validate_settings(cfg, provider_name, settings, image_name)` — four
positional arguments against a three-parameter function, so under Python call
binding this raises `TypeError` before validation runs.  Were the call to
bind, `settingsOk = false` would model a validation failure, and the `Upload`
constructor call — five positional arguments against at most three accepted
parameters — is checked the same way before `upload_init` runs. -/
def create_upload (settingsOk : Bool) (image_name : String)
    (settings : List (String × String)) (uuid : String) (now : Nat) :
    Except CreateError (Upload × List Upload) :=
  if call_binds validate_settings_param_count validate_settings_param_count
      create_upload_validate_arg_count = false then
    .error .typeError
  else if settingsOk = false then
    .error .validationFailed
  else if call_binds upload_init_required_param_count upload_init_max_param_count
      create_upload_init_arg_count = false then
    .error .typeError
  else
    .ok (upload_init image_name settings uuid now true)

/-- The upload contained in a file-lookup result, if any: what `get_upload`
with both ignore flags yields for that lookup. -/
def goodOf : Option FileState → Option Upload
  | some (.good u) => some u
  | _ => none

/-- The uploads of all readable, successfully unpickled files of the store,
in directory order. -/
def goodEntries (store : Store) : List Upload :=
  store.filterMap fun p =>
    match p.2 with
    | .good u => some u
    | .corrupt => none

/-- A store is coherent when every readable record sits in the file named by
its own uuid — true of every store the engine itself writes, since
`_write_upload` keys the file by `upload.uuid`. -/
def coherent (store : Store) : Bool :=
  store.all fun p =>
    match p.2 with
    | .good u => u.uuid == p.1
    | .corrupt => true

/-- Raw content of one file in the upload_queue directory, dropping the
`FileState` assumption: `pickle.load` either succeeds (`good`), raises
`pickle.UnpicklingError` on a malformed opcode stream (`corrupt`), or raises
a different exception (`truncated`) — CPython raises `EOFError` ("Ran out of
input") for an empty or boundary-truncated file, which is exactly what the
engine's own write path leaves behind when the process dies between
`open(path, "a").close()` in `_get_upload_path(write=True)` and the
`pickle.dump` of `_write_upload`. -/
inductive RawFile where
  | good (u : Upload)
  | corrupt
  | truncated
deriving DecidableEq

/-- The upload_queue directory under the raw file model. -/
abbrev RawStore := List (String × RawFile)

/-- Look a raw file up by name. -/
def lookupRawFile : RawStore → String → Option RawFile
  | [], _ => none
  | (k, fs) :: rest, uuid => if k = uuid then some fs else lookupRawFile rest uuid

/-- lifted/queue.py `get_upload` over the raw file model: its `except`
clauses name only `FileNotFoundError` and `pickle.UnpicklingError`, so the
`EOFError` of a truncated file is caught by neither and propagates to the
caller regardless of both ignore flags. -/
def get_upload_raw (store : RawStore) (uuid : String)
    (ignore_missing ignore_corrupt : Bool) :
    Except QueueError (Option Upload) :=
  match lookupRawFile store uuid with
  | some (.good u) => .ok (some u)
  | some .corrupt =>
      if ignore_corrupt then .ok none else .error (.corruptFile uuid)
  | some .truncated => .error (.uncaughtEOF uuid)
  | none =>
      if ignore_missing then .ok none else .error (.notFound uuid)

/-- lifted/queue.py `get_uploads` over the raw file model: reads each uuid
with both ignore flags and keeps the non-`None` results; an exception from
any single read propagates and aborts the whole scan. -/
def get_uploads_raw (store : RawStore) :
    List String → Except QueueError (List Upload)
  | [] => .ok []
  | uuid :: rest =>
      match get_upload_raw store uuid true true, get_uploads_raw store rest with
      | .ok o, .ok l => .ok (o.toList ++ l)
      | .error e, _ => .error e
      | .ok _, .error e => .error e

/-- lifted/queue.py `get_all_uploads` over the raw file model. -/
def get_all_uploads_raw (store : RawStore) : Except QueueError (List Upload) :=
  get_uploads_raw store (store.map Prod.fst)

/-- The upload contained in a raw-file lookup, if any: what `get_upload` with
both ignore flags yields when it yields at all. -/
def goodOfRaw : Option RawFile → Option Upload
  | some (.good u) => some u
  | _ => none

/-- The uploads of all readable files of a raw store, in directory order. -/
def goodRawEntries (store : RawStore) : List Upload :=
  store.filterMap fun p =>
    match p.2 with
    | .good u => some u
    | _ => none

/-- No file of the store is an empty or boundary-truncated pickle; the
`FileState` stores correspond exactly to the raw stores satisfying this. -/
def no_truncated (store : RawStore) : Bool :=
  store.all fun p =>
    match p.2 with
    | .truncated => false
    | _ => true

/-! Concrete fixture records used by counterexamples and witnesses. -/

/-- Fixture: a RUNNING record left behind by a crash, with no error set. -/
def abandonedRec : Upload :=
  { uuid := "j1", cloud_image_name := "img", settings := [],
    creation_time := 0, upload_log := "", error := none,
    image_path := some "/tmp/x.img", upload_pid := some 42,
    status := UploadStatus.RUNNING }

/-- Fixture: a FINISHED record that already has an artifact. -/
def finishedRec : Upload :=
  { uuid := "j2", cloud_image_name := "img", settings := [],
    creation_time := 1, upload_log := "", error := none,
    image_path := some "/old.img", upload_pid := some 7,
    status := UploadStatus.FINISHED }

/-- Fixture: a READY record about to be executed. -/
def readyRec : Upload :=
  { uuid := "j3", cloud_image_name := "img", settings := [],
    creation_time := 2, upload_log := "", error := none,
    image_path := some "/tmp/x.img", upload_pid := none,
    status := UploadStatus.READY }

/-- Fixture: a WAITING record, not yet given an artifact. -/
def waitingRec : Upload :=
  { uuid := "j4", cloud_image_name := "img", settings := [],
    creation_time := 3, upload_log := "", error := none,
    image_path := none, upload_pid := none,
    status := UploadStatus.WAITING }

/-- Fixture: a RUNNING record targeted by a delete request. -/
def runningDeleteRec : Upload :=
  { uuid := "j5", cloud_image_name := "img", settings := [],
    creation_time := 4, upload_log := "", error := none,
    image_path := some "/tmp/x.img", upload_pid := some 43,
    status := UploadStatus.RUNNING }

/-- Fixture: a FINISHED record targeted by a delete request. -/
def finishedDeleteRec : Upload :=
  { uuid := "j6", cloud_image_name := "img", settings := [],
    creation_time := 5, upload_log := "", error := none,
    image_path := some "/tmp/x.img", upload_pid := some 44,
    status := UploadStatus.FINISHED }

/-- Fixture: a readable record sitting next to a corrupt file in the queue
directory. -/
def survivorRec : Upload :=
  { uuid := "j7", cloud_image_name := "img", settings := [],
    creation_time := 6, upload_log := "", error := none,
    image_path := none, upload_pid := none,
    status := UploadStatus.WAITING }

/-- Fixture: a WAITING record used to show that the WAITING to READY
transition appends nothing to the log. -/
def waitingLogRec : Upload :=
  { uuid := "j8", cloud_image_name := "img", settings := [],
    creation_time := 7, upload_log := "earlier line\n", error := none,
    image_path := none, upload_pid := none,
    status := UploadStatus.WAITING }

/-- Fixture: a FAILED record with a known artifact, eligible for reset. -/
def failedResetRec : Upload :=
  { uuid := "j9", cloud_image_name := "img", settings := [],
    creation_time := 8, upload_log := "", error := some "boom",
    image_path := some "/tmp/x.img", upload_pid := some 45,
    status := UploadStatus.FAILED }

/-- Fixture: a READY record as seen by a Dispatcher tick. -/
def tickReadyRec : Upload :=
  { uuid := "j10", cloud_image_name := "img", settings := [],
    creation_time := 9, upload_log := "", error := none,
    image_path := some "/tmp/x.img", upload_pid := none,
    status := UploadStatus.READY }

/-- Fixture: a RUNNING record cancelled with no status callback, the way
`delete_upload` calls `upload.cancel()`. -/
def runningNoCallbackRec : Upload :=
  { uuid := "j12", cloud_image_name := "img", settings := [],
    creation_time := 10, upload_log := "", error := none,
    image_path := some "/tmp/x.img", upload_pid := some 46,
    status := UploadStatus.RUNNING }

/-! Store lemmas. -/

theorem lookup_append (st : Store) (x : String) (fs : FileState) (k : String) :
    lookupFile (st ++ [(x, fs)]) k =
      match lookupFile st k with
      | some v => some v
      | none => if x = k then some fs else none := by
  induction st with
  | nil => simp [lookupFile]
  | cons p rest ih =>
      obtain ⟨k0, fs0⟩ := p
      by_cases h : k0 = k
      · simp [lookupFile, h]
      · simp only [List.cons_append, lookupFile, if_neg h]
        exact ih

theorem lookup_map_replace (st : Store) (r : Upload) (k : String) :
    lookupFile (st.map fun p => if p.1 = r.uuid then (p.1, FileState.good r) else p) k =
      if k = r.uuid then (lookupFile st k).map (fun _ => FileState.good r)
      else lookupFile st k := by
  induction st with
  | nil => simp [lookupFile]
  | cons p rest ih =>
      obtain ⟨k0, fs0⟩ := p
      by_cases h0 : k0 = r.uuid
      · by_cases hk : k0 = k
        · subst hk
          rw [List.map_cons, if_pos h0]
          simp only [lookupFile, if_pos rfl, if_pos h0]
          simp
        · rw [List.map_cons, if_pos h0]
          simp only [lookupFile, if_neg hk]
          exact ih
      · by_cases hk : k0 = k
        · subst hk
          rw [List.map_cons, if_neg h0]
          simp only [lookupFile, if_pos rfl, if_neg h0]
          simp
        · rw [List.map_cons, if_neg h0]
          simp only [lookupFile, if_neg hk]
          exact ih

theorem lookup_write_upload (st : Store) (r : Upload) (k : String) :
    lookupFile (write_upload st r) k =
      if k = r.uuid then some (FileState.good r) else lookupFile st k := by
  unfold write_upload
  by_cases h : (lookupFile st r.uuid).isSome
  · rw [if_pos h, lookup_map_replace]
    by_cases hk : k = r.uuid
    · subst hk
      obtain ⟨fs, hfs⟩ := Option.isSome_iff_exists.mp h
      simp [hfs]
    · simp [hk]
  · rw [if_neg h, lookup_append]
    have h0 : lookupFile st r.uuid = none := Option.not_isSome_iff_eq_none.mp h
    by_cases hk : k = r.uuid
    · subst hk; simp [h0]
    · cases hl : lookupFile st k with
      | some v => simp [hl, hk]
      | none =>
          have hne : ¬ r.uuid = k := fun h => hk h.symm
          simp [hl, hk, hne]

theorem lookup_mem (st : Store) (k : String) (fs : FileState)
    (h : lookupFile st k = some fs) : (k, fs) ∈ st := by
  induction st with
  | nil => simp [lookupFile] at h
  | cons p rest ih =>
      obtain ⟨k0, fs0⟩ := p
      by_cases h0 : k0 = k
      · subst h0
        simp [lookupFile] at h
        subst h
        exact List.mem_cons_self _ _
      · simp [lookupFile, h0] at h
        exact List.mem_cons_of_mem _ (ih h)

theorem lookup_of_mem_nodup (st : Store) (hN : (st.map Prod.fst).Nodup)
    (k : String) (fs : FileState) (h : (k, fs) ∈ st) :
    lookupFile st k = some fs := by
  induction st with
  | nil => cases h
  | cons p rest ih =>
      obtain ⟨k0, fs0⟩ := p
      simp only [List.map_cons, List.nodup_cons] at hN
      rcases List.mem_cons.mp h with he | hm
      · rw [Prod.ext_iff] at he
        obtain ⟨h1, h2⟩ := he
        simp at h1 h2
        subst h1
        subst h2
        simp [lookupFile]
      · have hne : k0 ≠ k := by
          intro heq
          subst heq
          exact hN.1 (List.mem_map_of_mem Prod.fst hm)
        simp [lookupFile, hne]
        exact ih hN.2 hm

theorem lookup_none_iff (st : Store) (k : String) :
    lookupFile st k = none ↔ k ∉ st.map Prod.fst := by
  induction st with
  | nil => simp [lookupFile]
  | cons p rest ih =>
      obtain ⟨k0, fs0⟩ := p
      by_cases h0 : k0 = k
      · subst h0; simp [lookupFile]
      · rw [List.map_cons]
        simp only [lookupFile, if_neg h0, List.mem_cons, ih]
        constructor
        · rintro hnm (h | h)
          · exact h0 h.symm
          · exact hnm h
        · intro hn h
          exact hn (Or.inr h)

theorem lookup_eraseFile (st : Store) (k : String) :
    lookupFile (eraseFile st k) k = none := by
  induction st with
  | nil => rfl
  | cons p rest ih =>
      obtain ⟨k0, fs0⟩ := p
      by_cases h0 : k0 = k
      · subst h0; simpa [eraseFile, List.filter_cons] using ih
      · simpa [eraseFile, List.filter_cons, h0, lookupFile] using ih

/-! Read-path lemmas. -/

theorem get_upload_ignore (store : Store) (uuid : String) :
    get_upload store uuid true true = .ok (goodOf (lookupFile store uuid)) := by
  unfold get_upload goodOf
  cases h : lookupFile store uuid with
  | none => rfl
  | some fs => cases fs <;> rfl

theorem get_uploads_eq (store : Store) (uuids : List String) :
    get_uploads store uuids
      = .ok (uuids.filterMap fun id => goodOf (lookupFile store id)) := by
  induction uuids with
  | nil => rfl
  | cons id rest ih =>
      rw [get_uploads, get_upload_ignore, ih, List.filterMap_cons]
      cases h : goodOf (lookupFile store id) <;> simp [h]

theorem filterMap_keys_eq_goodEntries (store : Store)
    (hN : (store.map Prod.fst).Nodup) :
    ((store.map Prod.fst).filterMap fun id => goodOf (lookupFile store id))
      = goodEntries store := by
  induction store with
  | nil => rfl
  | cons p rest ih =>
      obtain ⟨k, fs⟩ := p
      rw [List.map_cons] at hN ⊢
      rw [List.nodup_cons] at hN
      rw [List.filterMap_cons]
      have hhead : lookupFile ((k, fs) :: rest) k = some fs := by
        simp [lookupFile]
      have htail : ((rest.map Prod.fst).filterMap fun id =>
          goodOf (lookupFile ((k, fs) :: rest) id))
          = (rest.map Prod.fst).filterMap fun id => goodOf (lookupFile rest id) := by
        apply List.filterMap_congr
        intro id hid
        have hne : ¬ k = id := fun h => hN.1 (h ▸ hid)
        simp [lookupFile, hne]
      rw [hhead, htail, ih hN.2]
      cases fs <;> simp [goodOf, goodEntries]

theorem get_all_uploads_eq (store : Store) (hN : (store.map Prod.fst).Nodup) :
    get_all_uploads store = .ok (goodEntries store) := by
  unfold get_all_uploads list_upload_uuids
  rw [get_uploads_eq, filterMap_keys_eq_goodEntries store hN]

theorem coherent_uuid (store : Store) (hC : coherent store = true)
    (k : String) (u : Upload) (h : (k, FileState.good u) ∈ store) :
    u.uuid = k := by
  have hall := List.all_eq_true.mp hC _ h
  simpa using hall

theorem coherent_cons (p : String × FileState) (rest : Store)
    (hC : coherent (p :: rest) = true) : coherent rest = true := by
  unfold coherent at hC ⊢
  rw [List.all_cons, Bool.and_eq_true] at hC
  exact hC.2

theorem mem_goodEntries (store : Store) (u : Upload) :
    u ∈ goodEntries store ↔ ∃ k, (k, FileState.good u) ∈ store := by
  unfold goodEntries
  rw [List.mem_filterMap]
  constructor
  · rintro ⟨⟨k, fs⟩, hm, he⟩
    cases fs with
    | good v =>
        simp at he
        exact ⟨k, he ▸ hm⟩
    | corrupt => simp at he
  · rintro ⟨k, hm⟩
    exact ⟨(k, FileState.good u), hm, rfl⟩

theorem goodEntries_uuid_sublist (store : Store) (hC : coherent store = true) :
    ((goodEntries store).map Upload.uuid).Sublist (store.map Prod.fst) := by
  induction store with
  | nil => simp [goodEntries]
  | cons p rest ih =>
      have hrest := ih (coherent_cons p rest hC)
      obtain ⟨k, fs⟩ := p
      cases fs with
      | corrupt =>
          rw [List.map_cons]
          simp only [goodEntries, List.filterMap_cons]
          exact hrest.cons k
      | good u =>
          have hu : u.uuid = k :=
            coherent_uuid _ hC _ _ (List.mem_cons_self _ _)
          rw [List.map_cons]
          simp only [goodEntries, List.filterMap_cons, List.map_cons]
          rw [hu]
          exact hrest.cons₂ k

theorem goodEntries_uuid_nodup (store : Store)
    (hN : (store.map Prod.fst).Nodup) (hC : coherent store = true) :
    ((goodEntries store).map Upload.uuid).Nodup :=
  hN.sublist (goodEntries_uuid_sublist store hC)

/-! Supervisor fold lemmas. -/

theorem supervisor_step_eq (st : Store) (u : Upload) :
    supervisor_step st u =
      if u.status = UploadStatus.RUNNING then
        write_upload st { u with status := UploadStatus.FAILED }
      else st := rfl

theorem lookup_supervisor_step (st : Store) (u : Upload) (k : String)
    (hk : u.uuid ≠ k) :
    lookupFile (supervisor_step st u) k = lookupFile st k := by
  rw [supervisor_step_eq]
  by_cases hr : u.status = UploadStatus.RUNNING
  · rw [if_pos hr, lookup_write_upload]
    have : ¬ k = ({ u with status := UploadStatus.FAILED } : Upload).uuid :=
      fun h => hk h.symm
    rw [if_neg this]
  · rw [if_neg hr]

theorem lookup_foldl_not_mem (ups : List Upload) (st : Store) (k : String)
    (h : k ∉ ups.map Upload.uuid) :
    lookupFile (ups.foldl supervisor_step st) k = lookupFile st k := by
  induction ups generalizing st with
  | nil => rfl
  | cons u rest ih =>
      rw [List.map_cons, List.mem_cons] at h
      push_neg at h
      rw [List.foldl_cons, ih _ h.2, lookup_supervisor_step]
      exact fun he => h.1 he.symm

theorem lookup_foldl_supervisor (ups : List Upload) (st : Store) (k : String)
    (hN : (ups.map Upload.uuid).Nodup) :
    lookupFile (ups.foldl supervisor_step st) k =
      match ups.find? (fun u => u.uuid == k) with
      | some u =>
          if u.status = UploadStatus.RUNNING
          then some (FileState.good { u with status := UploadStatus.FAILED })
          else lookupFile st k
      | none => lookupFile st k := by
  induction ups generalizing st with
  | nil => rfl
  | cons u rest ih =>
      rw [List.map_cons, List.nodup_cons] at hN
      rw [List.foldl_cons]
      by_cases hk : u.uuid = k
      · rw [List.find?_cons_of_pos _ (by simp [hk])]
        have hnm : k ∉ rest.map Upload.uuid := hk ▸ hN.1
        rw [lookup_foldl_not_mem rest _ k hnm]
        rw [supervisor_step_eq]
        dsimp only
        by_cases hr : u.status = UploadStatus.RUNNING
        · rw [if_pos hr, if_pos hr, lookup_write_upload]
          rw [if_pos hk.symm]
        · rw [if_neg hr, if_neg hr]
      · rw [List.find?_cons_of_neg _ (by simp [hk])]
        rw [ih _ hN.2]
        cases hf : rest.find? (fun v => v.uuid == k) with
        | none => exact lookup_supervisor_step st u k hk
        | some v =>
            dsimp only
            by_cases hv : v.status = UploadStatus.RUNNING
            · rw [if_pos hv, if_pos hv]
            · rw [if_neg hv, if_neg hv]
              exact lookup_supervisor_step st u k hk

theorem find?_uuid_of_mem_nodup (l : List Upload)
    (hN : (l.map Upload.uuid).Nodup) (u : Upload) (k : String)
    (hm : u ∈ l) (hk : u.uuid = k) :
    l.find? (fun v => v.uuid == k) = some u := by
  induction l with
  | nil => cases hm
  | cons v rest ih =>
      rw [List.map_cons, List.nodup_cons] at hN
      rcases List.mem_cons.mp hm with he | hmem
      · subst he
        exact List.find?_cons_of_pos _ (by simp [hk])
      · have hvk : ¬ v.uuid = k := by
          intro heq
          apply hN.1
          rw [heq, ← hk]
          exact List.mem_map_of_mem Upload.uuid hmem
        rw [List.find?_cons_of_neg _ (by simp [hvk])]
        exact ih hN.2 hmem

/-! Dispatcher lemmas. -/

theorem mem_insertByCreation (u v : Upload) (l : List Upload) :
    v ∈ insertByCreation u l ↔ v = u ∨ v ∈ l := by
  induction l with
  | nil => simp [insertByCreation]
  | cons w rest ih =>
      unfold insertByCreation
      by_cases h : u.creation_time < w.creation_time
      · simp [h]
      · rw [if_neg h]
        rw [List.mem_cons, ih, List.mem_cons]
        tauto

theorem mem_sortByCreation (v : Upload) (l : List Upload) :
    v ∈ sortByCreation l ↔ v ∈ l := by
  induction l with
  | nil => simp [sortByCreation]
  | cons u rest ih =>
      rw [sortByCreation, mem_insertByCreation, ih, List.mem_cons]

theorem tick_fold_pool_mono (l : List Upload) (acc : List String × List String)
    (id : String) (h : id ∈ acc.1) : id ∈ (l.foldl tick_step acc).1 := by
  induction l generalizing acc with
  | nil => exact h
  | cons u rest ih =>
      rw [List.foldl_cons]
      apply ih
      unfold tick_step
      by_cases hc : u.status = UploadStatus.READY ∧ ¬ acc.1.contains u.uuid
      · rw [if_pos hc]
        exact List.mem_cons_of_mem _ h
      · rw [if_neg hc]
        exact h

theorem tick_fold_no_resubmit (l : List Upload) (acc : List String × List String)
    (id : String) (h1 : id ∈ acc.1) (h2 : id ∉ acc.2) :
    id ∉ (l.foldl tick_step acc).2 := by
  induction l generalizing acc with
  | nil => exact h2
  | cons u rest ih =>
      rw [List.foldl_cons]
      unfold tick_step
      by_cases hc : u.status = UploadStatus.READY ∧ ¬ acc.1.contains u.uuid
      · rw [if_pos hc]
        have hne : u.uuid ≠ id := by
          intro he
          apply hc.2
          subst he
          simpa using h1
        apply ih
        · exact List.mem_cons_of_mem _ h1
        · intro hmem
          rcases List.mem_append.mp hmem with hm | hm
          · exact h2 hm
          · rw [List.mem_singleton] at hm
            exact hne hm.symm
      · rw [if_neg hc]
        exact ih acc h1 h2

theorem tick_fold_source (l : List Upload) (acc : List String × List String)
    (id : String) (h : id ∈ (l.foldl tick_step acc).2) :
    id ∈ acc.2 ∨ ∃ u, u ∈ l ∧ u.uuid = id ∧ u.status = UploadStatus.READY := by
  induction l generalizing acc with
  | nil => exact Or.inl h
  | cons u rest ih =>
      rw [List.foldl_cons] at h
      rcases ih _ h with hacc | ⟨v, hv, hvid, hvs⟩
      · unfold tick_step at hacc
        by_cases hc : u.status = UploadStatus.READY ∧ ¬ acc.1.contains u.uuid
        · rw [if_pos hc] at hacc
          rcases List.mem_append.mp hacc with hm | hm
          · exact Or.inl hm
          · rw [List.mem_singleton] at hm
            exact Or.inr ⟨u, List.mem_cons_self _ _, hm.symm, hc.1⟩
        · rw [if_neg hc] at hacc
          exact Or.inl hacc
      · exact Or.inr ⟨v, List.mem_cons_of_mem _ hv, hvid, hvs⟩

/-! Claim C1. -/

/-- C1, amended (the Supervisor pass): for every persisted record, the
Supervisor pass at the start of `monitor` transitions a RUNNING record to
FAILED with every other field unchanged — in particular no abandoned-on-
restart error is recorded in its `error` field, which `set_status` does not
touch — and leaves every record whose status is not RUNNING, every corrupt
file, and every absent file unchanged.  The hypotheses hold for any store the
engine itself wrote: file names are distinct and each record sits in the file
named by its uuid. -/
theorem supervisor_pass_marks_running_failed (store : Store)
    (hN : (store.map Prod.fst).Nodup) (hC : coherent store = true) (k : String) :
    (∀ u, lookupFile store k = some (FileState.good u) →
        lookupFile (supervisor_pass store) k =
          some (FileState.good
            (if u.status = UploadStatus.RUNNING
             then { u with status := UploadStatus.FAILED } else u))) ∧
    (lookupFile store k = some FileState.corrupt →
        lookupFile (supervisor_pass store) k = some FileState.corrupt) ∧
    (lookupFile store k = none →
        lookupFile (supervisor_pass store) k = none) := by
  have hpass : supervisor_pass store
      = (goodEntries store).foldl supervisor_step store := by
    unfold supervisor_pass
    rw [get_all_uploads_eq store hN]
  have hGN := goodEntries_uuid_nodup store hN hC
  refine ⟨?_, ?_, ?_⟩
  · intro u hu
    have hmem : (k, FileState.good u) ∈ store := lookup_mem store k _ hu
    have huuid : u.uuid = k := coherent_uuid store hC k u hmem
    have hfind := find?_uuid_of_mem_nodup (goodEntries store) hGN u k
      ((mem_goodEntries store u).mpr ⟨k, hmem⟩) huuid
    rw [hpass, lookup_foldl_supervisor _ _ _ hGN, hfind]
    dsimp only
    by_cases hr : u.status = UploadStatus.RUNNING
    · rw [if_pos hr, if_pos hr]
    · rw [if_neg hr, if_neg hr]
      exact hu
  · intro hcor
    have hfind : (goodEntries store).find? (fun v => v.uuid == k) = none := by
      rw [List.find?_eq_none]
      intro v hv hbeq
      have hveq : v.uuid = k := by simpa using hbeq
      obtain ⟨k2, hk2⟩ := (mem_goodEntries store v).mp hv
      have hk2eq : v.uuid = k2 := coherent_uuid store hC k2 v hk2
      have hkk : k2 = k := by rw [← hk2eq, hveq]
      subst hkk
      have hlk := lookup_of_mem_nodup store hN k2 _ hk2
      rw [hcor] at hlk
      simp at hlk
    rw [hpass, lookup_foldl_supervisor _ _ _ hGN, hfind]
    exact hcor
  · intro hnone
    have hk_not : k ∉ store.map Prod.fst := (lookup_none_iff store k).mp hnone
    have hfind : (goodEntries store).find? (fun v => v.uuid == k) = none := by
      rw [List.find?_eq_none]
      intro v hv hbeq
      have hveq : v.uuid = k := by simpa using hbeq
      obtain ⟨k2, hk2⟩ := (mem_goodEntries store v).mp hv
      have hk2eq : v.uuid = k2 := coherent_uuid store hC k2 v hk2
      apply hk_not
      rw [← hveq, hk2eq]
      exact List.mem_map_of_mem Prod.fst hk2
    rw [hpass, lookup_foldl_supervisor _ _ _ hGN, hfind]
    exact hnone

/-- C1 counterexample: the claim as stated says an abandoned-on-restart error
is recorded in the record's `error` field; on a crash-abandoned RUNNING
record the pass yields status FAILED but `error` is still `none` — the loop
calls only `set_status(FAILED, callback)` and never assigns `error`. -/
theorem supervisor_pass_no_abandoned_error :
    lookupFile (supervisor_pass [("j1", FileState.good abandonedRec)]) "j1"
      = some (FileState.good { abandonedRec with status := UploadStatus.FAILED }) ∧
    ({ abandonedRec with status := UploadStatus.FAILED }).error = none := by
  exact ⟨rfl, rfl⟩

/-- Witness for `supervisor_pass_marks_running_failed` at a concrete
one-record store. -/
theorem supervisor_pass_marks_running_failed_witness :
    (([("j1", FileState.good abandonedRec)] : Store).map Prod.fst).Nodup ∧
    coherent [("j1", FileState.good abandonedRec)] = true ∧
    lookupFile (supervisor_pass [("j1", FileState.good abandonedRec)]) "j1"
      = some (FileState.good { abandonedRec with status := UploadStatus.FAILED }) :=
  ⟨by decide, by decide,
    ((supervisor_pass_marks_running_failed [("j1", FileState.good abandonedRec)]
        (by decide) (by decide) "j1").1 abandonedRec (by decide)).trans (by decide)⟩

/-! Claim C2. -/

/-- C2, amended: `execute` on a record whose status is not READY fails with
RuntimeError "This upload is not ready!" and returns before any field is
assigned or any callback runs, so nothing is mutated or persisted; but
`ready` on a record whose status is not WAITING does not fail at all — it
silently overwrites `image_path` with the supplied value (the assignment
precedes the status check and is unconditional), leaves the status alone, and
invokes no callback, so nothing is persisted. -/
theorem invalid_transition_behavior (u : Upload) (pid : Nat)
    (outcome : TaskOutcome) (cb : Bool) (p : String) :
    (u.status ≠ UploadStatus.READY →
        execute u pid outcome cb = .error UploadOpError.notReady) ∧
    (u.status ≠ UploadStatus.WAITING →
        ready u p cb = ({ u with image_path := some p }, [])) := by
  constructor
  · intro h
    unfold execute
    rw [if_pos h]
  · intro h
    unfold ready
    rw [if_neg h]

/-- C2 counterexample: the claim as stated says supplying an artifact via
`ready` to a record whose status is not WAITING fails with an error and
leaves `image_path` unmutated; on a FINISHED record `ready` raises nothing
(its return type carries no error at all) and `image_path` changes from
"/old.img" to "/new.img". -/
theorem ready_overwrites_image_path :
    (ready finishedRec "/new.img" true).1.image_path = some "/new.img" ∧
    finishedRec.image_path = some "/old.img" ∧
    (ready finishedRec "/new.img" true).1.status = UploadStatus.FINISHED ∧
    (ready finishedRec "/new.img" true).2 = [] := by
  exact ⟨rfl, rfl, rfl, rfl⟩

/-- Witness for `invalid_transition_behavior` at a concrete FINISHED
record. -/
theorem invalid_transition_behavior_witness :
    finishedRec.status ≠ UploadStatus.READY ∧
    execute finishedRec 9 TaskOutcome.success true = .error UploadOpError.notReady :=
  ⟨by decide,
    (invalid_transition_behavior finishedRec 9 TaskOutcome.success true "/p").1
      (by decide)⟩

/-! Claim C4. -/

/-- C4 (confirmed): for a READY record (whose `error` is `none`, as holds for
every READY record the code can produce: creation and `reset` both leave
`error` clear), `execute` first records the worker pid and transitions to
RUNNING, persisting through the status callback; if the task body returns
normally the record ends FINISHED with `error` still unset, and if the body
raises, the error message and traceback are appended to the log, the error is
recorded, the record ends FAILED, and `execute` still returns normally (the
exception is swallowed by the `except` clause, never re-raised).  The write
list is exactly the RUNNING snapshot followed by the terminal snapshot, each
persisted by `set_status` before control returns. -/
theorem execute_ready_behavior (u : Upload) (pid : Nat) (msg tb : String)
    (hs : u.status = UploadStatus.READY) (he : u.error = none) :
    execute u pid TaskOutcome.success true =
      .ok ({ u with upload_pid := some pid, status := UploadStatus.FINISHED },
        [{ u with upload_pid := some pid, status := UploadStatus.RUNNING },
         { u with upload_pid := some pid, status := UploadStatus.FINISHED }]) ∧
    ({ u with upload_pid := some pid, status := UploadStatus.FINISHED }).error
      = none ∧
    execute u pid (TaskOutcome.failure msg tb) true =
      .ok ({ u with
              upload_pid := some pid
              upload_log := u.upload_log ++ (msg ++ ": " ++ tb) ++ "\n"
              error := some msg
              status := UploadStatus.FAILED },
        [{ u with upload_pid := some pid, status := UploadStatus.RUNNING },
         { u with
            upload_pid := some pid
            upload_log := u.upload_log ++ (msg ++ ": " ++ tb) ++ "\n"
            error := some msg
            status := UploadStatus.FAILED }]) := by
  refine ⟨?_, ?_, ?_⟩
  · unfold execute set_status
    rw [if_neg (by rw [hs]; exact fun h => h rfl)]
    rfl
  · simpa using he
  · unfold execute set_status Upload.log_append
    rw [if_neg (by rw [hs]; exact fun h => h rfl)]
    rfl

/-- Witness for `execute_ready_behavior` at a concrete READY record, success
outcome. -/
theorem execute_ready_behavior_witness :
    readyRec.status = UploadStatus.READY ∧ readyRec.error = none ∧
    execute readyRec 7 TaskOutcome.success true =
      .ok ({ readyRec with upload_pid := some 7, status := UploadStatus.FINISHED },
        [{ readyRec with upload_pid := some 7, status := UploadStatus.RUNNING },
         { readyRec with upload_pid := some 7, status := UploadStatus.FINISHED }]) :=
  ⟨rfl, rfl, (execute_ready_behavior readyRec 7 "m" "t" rfl rfl).1⟩

/-! Claim C5. -/

/-- C5 (confirmed): on a record whose status is WAITING, READY, or RUNNING
(exactly the statuses `is_cancellable` accepts), `cancel` succeeds, sends
SIGINT to the worker pid precisely when one is set (the returned Bool), and
sets the status to CANCELLED; calling `cancel` again on the now-CANCELLED
record raises RuntimeError ("Can't cancel, status is already CANCELLED!")
before any mutation, and the status remains CANCELLED. -/
theorem cancel_then_cancel_again (u : Upload) (cb : Bool)
    (h : is_cancellable u = true) :
    cancel u cb =
      .ok ({ u with status := UploadStatus.CANCELLED }, u.upload_pid.isSome,
        if cb then [{ u with status := UploadStatus.CANCELLED }] else []) ∧
    cancel { u with status := UploadStatus.CANCELLED } cb =
      .error (UploadOpError.notCancellable UploadStatus.CANCELLED) ∧
    ({ u with status := UploadStatus.CANCELLED }).status
      = UploadStatus.CANCELLED := by
  refine ⟨?_, rfl, rfl⟩
  unfold cancel set_status
  rw [if_neg (by simp [h])]

/-- Witness for `cancel_then_cancel_again` at a concrete RUNNING record with
a live pid. -/
theorem cancel_then_cancel_again_witness :
    is_cancellable abandonedRec = true ∧
    cancel abandonedRec true =
      .ok ({ abandonedRec with status := UploadStatus.CANCELLED }, true,
        [{ abandonedRec with status := UploadStatus.CANCELLED }]) :=
  ⟨rfl, (cancel_then_cancel_again abandonedRec true rfl).1⟩

/-! Claim C3. -/

/-- C3 (confirmed): across Dispatcher ticks, an id already in the in-memory
claimed set `pool_uuids` is never submitted again by a tick; the only event
that removes an id from the claimed set is the pool reporting completion of
that very id (the `remover` callback); every uuid a tick submits belongs to
a record whose persisted status is READY, so a record whose persisted status
is CANCELLED (unique by uuid) is never submitted on any tick. -/
theorem dispatcher_never_double_submits (ups : List Upload)
    (pool_uuids : List String) (id : String) :
    (id ∈ pool_uuids → id ∉ (dispatcher_tick ups pool_uuids).2) ∧
    (∀ e, id ∈ pool_uuids → id ∉ (pool_step pool_uuids e).1 →
        e = PoolEvent.completion id) ∧
    (id ∈ (dispatcher_tick ups pool_uuids).2 →
        ∃ u, u ∈ ups ∧ u.uuid = id ∧ u.status = UploadStatus.READY) ∧
    (∀ u, u ∈ ups → u.status = UploadStatus.CANCELLED →
        (ups.map Upload.uuid).Nodup →
        u.uuid ∉ (dispatcher_tick ups pool_uuids).2) := by
  refine ⟨?_, ?_, ?_, ?_⟩
  · intro h
    exact tick_fold_no_resubmit _ _ _ h (by simp)
  · intro e h1 h2
    cases e with
    | tick ups2 =>
        exact absurd (tick_fold_pool_mono _ _ _ h1) h2
    | completion uuid =>
        by_cases he : uuid = id
        · rw [he]
        · exact absurd
            ((List.mem_erase_of_ne (fun hx => he hx.symm)).mpr h1) h2
  · intro h
    rcases tick_fold_source _ _ _ h with hacc | ⟨u, hu, hid, hst⟩
    · simp at hacc
    · exact ⟨u, (mem_sortByCreation u ups).mp hu, hid, hst⟩
  · intro u hu hc hN hmem
    rcases tick_fold_source _ _ _ hmem with hacc | ⟨v, hv, hvid, hvs⟩
    · simp at hacc
    · have hv2 : v ∈ ups := (mem_sortByCreation v ups).mp hv
      have hveq : v = u := List.inj_on_of_nodup_map hN hv2 hu hvid
      rw [hveq, hc] at hvs
      cases hvs

/-- Witness for `dispatcher_never_double_submits`: a tick over a READY record
whose uuid is already claimed submits nothing. -/
theorem dispatcher_never_double_submits_witness :
    "j10" ∈ (["j10"] : List String) ∧
    "j10" ∉ (dispatcher_tick [tickReadyRec] ["j10"]).2 :=
  ⟨by decide,
    (dispatcher_never_double_submits [tickReadyRec] ["j10"] "j10").1 (by decide)⟩

/-! Claim C6. -/

/-- C6, amended: a delete request on any readable record — RUNNING included —
does not fail: `delete_upload` cancels the in-memory copy first when the
record is cancellable (sending SIGINT exactly when a worker pid is set, the
returned Bool) and then removes the file, so after deletion the record's file
is gone.  Only a missing or corrupt file makes `delete_upload` raise.
Deleting a record in a terminal state removes its file without signalling. -/
theorem delete_upload_removes_record (store : Store) (uuid : String) (u : Upload)
    (h : lookupFile store uuid = some (FileState.good u)) :
    delete_upload store uuid =
      .ok (eraseFile store uuid, is_cancellable u && u.upload_pid.isSome) ∧
    lookupFile (eraseFile store uuid) uuid = none := by
  constructor
  · unfold delete_upload get_upload
    rw [h]
  · exact lookup_eraseFile store uuid

/-- C6 counterexample: the claim as stated says deleting a RUNNING record
fails with an error and leaves the file in the Store until the record is
cancelled first; on a RUNNING record `delete_upload` instead returns
successfully, signals the worker (SIGINT, the `true`), and removes the file
in the same call. -/
theorem delete_running_succeeds :
    runningDeleteRec.status = UploadStatus.RUNNING ∧
    delete_upload [("j5", FileState.good runningDeleteRec)] "j5"
      = .ok ([], true) :=
  ⟨rfl, rfl⟩

/-- Witness for `delete_upload_removes_record` at a concrete FINISHED
record. -/
theorem delete_upload_removes_record_witness :
    lookupFile [("j6", FileState.good finishedDeleteRec)] "j6"
      = some (FileState.good finishedDeleteRec) ∧
    delete_upload [("j6", FileState.good finishedDeleteRec)] "j6"
      = .ok ([], false) ∧
    lookupFile (eraseFile [("j6", FileState.good finishedDeleteRec)] "j6") "j6"
      = none :=
  ⟨rfl,
    (delete_upload_removes_record [("j6", FileState.good finishedDeleteRec)]
      "j6" finishedDeleteRec rfl).1,
    (delete_upload_removes_record [("j6", FileState.good finishedDeleteRec)]
      "j6" finishedDeleteRec rfl).2⟩

/-! Claim C7, over the raw file model. -/

theorem lookup_raw_mem (st : RawStore) (k : String) (fs : RawFile)
    (h : lookupRawFile st k = some fs) : (k, fs) ∈ st := by
  induction st with
  | nil => simp [lookupRawFile] at h
  | cons p rest ih =>
      obtain ⟨k0, fs0⟩ := p
      by_cases h0 : k0 = k
      · subst h0
        simp [lookupRawFile] at h
        subst h
        exact List.mem_cons_self _ _
      · simp [lookupRawFile, h0] at h
        exact List.mem_cons_of_mem _ (ih h)

theorem no_truncated_lookup (st : RawStore) (hT : no_truncated st = true)
    (k : String) : lookupRawFile st k ≠ some RawFile.truncated := by
  intro hl
  have hm := lookup_raw_mem st k _ hl
  have hall := List.all_eq_true.mp hT _ hm
  simp at hall

theorem get_upload_raw_ignore (store : RawStore) (uuid : String)
    (h : lookupRawFile store uuid ≠ some RawFile.truncated) :
    get_upload_raw store uuid true true
      = .ok (goodOfRaw (lookupRawFile store uuid)) := by
  unfold get_upload_raw goodOfRaw
  cases hl : lookupRawFile store uuid with
  | none => rfl
  | some fs =>
      cases fs with
      | good u => rfl
      | corrupt => rfl
      | truncated => exact absurd hl h

theorem get_uploads_raw_eq (store : RawStore) (uuids : List String)
    (h : ∀ id ∈ uuids, lookupRawFile store id ≠ some RawFile.truncated) :
    get_uploads_raw store uuids
      = .ok (uuids.filterMap fun id => goodOfRaw (lookupRawFile store id)) := by
  induction uuids with
  | nil => rfl
  | cons id rest ih =>
      rw [get_uploads_raw,
        get_upload_raw_ignore store id (h id (List.mem_cons_self _ _)),
        ih (fun x hx => h x (List.mem_cons_of_mem _ hx)), List.filterMap_cons]
      cases hg : goodOfRaw (lookupRawFile store id) <;> simp [hg]

theorem filterMap_keys_eq_goodRawEntries (store : RawStore)
    (hN : (store.map Prod.fst).Nodup) :
    ((store.map Prod.fst).filterMap fun id => goodOfRaw (lookupRawFile store id))
      = goodRawEntries store := by
  induction store with
  | nil => rfl
  | cons p rest ih =>
      obtain ⟨k, fs⟩ := p
      rw [List.map_cons] at hN ⊢
      rw [List.nodup_cons] at hN
      rw [List.filterMap_cons]
      have hhead : lookupRawFile ((k, fs) :: rest) k = some fs := by
        simp [lookupRawFile]
      have htail : ((rest.map Prod.fst).filterMap fun id =>
          goodOfRaw (lookupRawFile ((k, fs) :: rest) id))
          = (rest.map Prod.fst).filterMap fun id =>
              goodOfRaw (lookupRawFile rest id) := by
        apply List.filterMap_congr
        intro id hid
        have hne : ¬ k = id := fun h => hN.1 (h ▸ hid)
        simp [lookupRawFile, hne]
      rw [hhead, htail, ih hN.2]
      cases fs <;> simp [goodOfRaw, goodRawEntries]

theorem get_uploads_raw_ne_ok (store : RawStore) (uuid : String)
    (e : QueueError) (he : get_upload_raw store uuid true true = .error e) :
    ∀ uuids : List String, uuid ∈ uuids →
      ∀ l, get_uploads_raw store uuids ≠ .ok l := by
  intro uuids
  induction uuids with
  | nil => intro hm; cases hm
  | cons id rest ih =>
      intro hm l hco
      rw [get_uploads_raw] at hco
      rcases List.mem_cons.mp hm with heq | hmem
      · subst heq
        rw [he] at hco
        cases hrest : get_uploads_raw store rest <;>
          rw [hrest] at hco <;> simp at hco
      · cases hh : get_upload_raw store id true true with
        | ok o =>
            rw [hh] at hco
            cases hrest : get_uploads_raw store rest with
            | ok l2 => exact ih hmem l2 hrest
            | error e2 => rw [hrest] at hco; simp at hco
        | error e2 => rw [hh] at hco; simp at hco

/-- C7, amended: for a queue directory with distinct file names, missing
files and files whose unpickling raises `pickle.UnpicklingError` are
tolerated — the single-record `get_upload` signals them as the distinct
NotFound-style and Corrupt-style RuntimeErrors, and the bulk scan, reading
with both ignore flags, filters them out and returns exactly the
successfully deserialized records — but only those: a file whose unpickling
raises any other exception, such as the `EOFError` of an empty or
boundary-truncated pickle, is caught by neither `except` clause, so the
single get propagates it regardless of the ignore flags and its presence
makes the bulk scan raise instead of returning a record list. -/
theorem get_all_uploads_partial_tolerance (store : RawStore)
    (hN : (store.map Prod.fst).Nodup) :
    (no_truncated store = true →
        get_all_uploads_raw store = .ok (goodRawEntries store)) ∧
    (∀ uuid, lookupRawFile store uuid = none →
        get_upload_raw store uuid false false
          = .error (QueueError.notFound uuid)) ∧
    (∀ uuid, lookupRawFile store uuid = some RawFile.corrupt →
        get_upload_raw store uuid false false
          = .error (QueueError.corruptFile uuid)) ∧
    (∀ uuid im ic, lookupRawFile store uuid = some RawFile.truncated →
        get_upload_raw store uuid im ic
          = .error (QueueError.uncaughtEOF uuid)) ∧
    (∀ uuid, lookupRawFile store uuid = some RawFile.truncated →
        ∀ l, get_all_uploads_raw store ≠ .ok l) ∧
    (∀ uuid, QueueError.notFound uuid ≠ QueueError.corruptFile uuid ∧
        QueueError.notFound uuid ≠ QueueError.uncaughtEOF uuid ∧
        QueueError.corruptFile uuid ≠ QueueError.uncaughtEOF uuid) := by
  refine ⟨?_, ?_, ?_, ?_, ?_, ?_⟩
  · intro hT
    unfold get_all_uploads_raw
    rw [get_uploads_raw_eq store _ (fun id _ => no_truncated_lookup store hT id),
      filterMap_keys_eq_goodRawEntries store hN]
  · intro uuid h
    unfold get_upload_raw
    rw [h]
    rfl
  · intro uuid h
    unfold get_upload_raw
    rw [h]
    rfl
  · intro uuid im ic h
    unfold get_upload_raw
    rw [h]
  · intro uuid h l
    have he : get_upload_raw store uuid true true
        = .error (QueueError.uncaughtEOF uuid) := by
      unfold get_upload_raw
      rw [h]
    have hm : uuid ∈ store.map Prod.fst :=
      List.mem_map_of_mem Prod.fst (lookup_raw_mem store uuid _ h)
    exact get_uploads_raw_ne_ok store uuid _ he (store.map Prod.fst) hm l
  · intro uuid
    exact ⟨fun h => QueueError.noConfusion h, fun h => QueueError.noConfusion h,
      fun h => QueueError.noConfusion h⟩

/-- C7 counterexample: a queue directory holding one readable record and one
empty file — precisely what the engine's own write path leaves when it dies
after `open(path, "a").close()` and before `pickle.dump` runs.  `pickle.load`
on the empty file raises `EOFError`, which `get_upload` catches with neither
`except FileNotFoundError` nor `except pickle.UnpicklingError`, so even with
`ignore_corrupt` the bulk scan raises instead of returning the readable
record — refuting "returns exactly the successfully deserialized records and
never raises" for directories with partially-written files. -/
theorem get_all_uploads_aborts_on_truncated :
    get_all_uploads_raw
        [("j7", RawFile.good survivorRec), ("empty", RawFile.truncated)]
      = .error (QueueError.uncaughtEOF "empty") ∧
    get_upload_raw [("empty", RawFile.truncated)] "empty" true true
      = .error (QueueError.uncaughtEOF "empty") :=
  ⟨rfl, rfl⟩

/-- Witness for `get_all_uploads_partial_tolerance`: the scan succeeds on a
store of one readable and one UnpicklingError-corrupt file, and a truncated
file's error passes the ignore flags. -/
theorem get_all_uploads_partial_tolerance_witness :
    no_truncated [("j7", RawFile.good survivorRec), ("bad", RawFile.corrupt)]
      = true ∧
    (([("j7", RawFile.good survivorRec), ("bad", RawFile.corrupt)] : RawStore).map
        Prod.fst).Nodup ∧
    get_all_uploads_raw
        [("j7", RawFile.good survivorRec), ("bad", RawFile.corrupt)]
      = .ok [survivorRec] ∧
    lookupRawFile [("e", RawFile.truncated)] "e" = some RawFile.truncated ∧
    get_upload_raw [("e", RawFile.truncated)] "e" true true
      = .error (QueueError.uncaughtEOF "e") :=
  ⟨by decide, by decide,
    (get_all_uploads_partial_tolerance
      [("j7", RawFile.good survivorRec), ("bad", RawFile.corrupt)]
      (by decide)).1 (by decide),
    rfl,
    (get_all_uploads_partial_tolerance [("e", RawFile.truncated)]
      (by decide)).2.2.2.1 "e" true true (by decide)⟩

/-! Claim C8. -/

/-- C8 (code_bug): `create_upload` can never return a WAITING record — for
every input, valid settings included, it raises `TypeError`.  The call
`validate_settings(cfg, provider_name, settings, image_name)` passes four
positional arguments to the three-parameter `validate_settings(cfg,
provider_name, settings)` of lifted/providers.py, and even past that the
constructor call passes five positional arguments to
`Upload.__init__(self, cloud_image_name, settings, status_callback=None)`,
which accepts at most three.  The claim matches the spec's intent; the code's
two modules disagree about both signatures. -/
theorem create_upload_always_type_error (settingsOk : Bool) (image_name : String)
    (settings : List (String × String)) (uuid : String) (now : Nat) :
    create_upload settingsOk image_name settings uuid now
      = .error CreateError.typeError := rfl

/-! Claim C9. -/

/-- C9, amended: each transition hands exactly its status-change snapshots
to the status callback before returning, the last snapshot being the
returned record; the queue-level operations (`ready_upload`, the monitor's
`execute`, `cancel_upload`, `reset_upload`) all pass the Store's write
callback, so their transitions are persisted before control returns.  But
the original claim fails in two ways.  First, only two transitions append a
log line — the RUNNING to FAILED path of `execute` (error plus traceback)
and `reset` ("Resetting...") — while the WAITING to READY, READY to RUNNING,
RUNNING to FINISHED, and cancellation transitions leave the log untouched:
`set_status` never logs, and those call sites never call `_log`.  Second,
the any-to-CANCELLED transition performed inside `delete_upload`, which
calls `upload.cancel()` with no status callback, hands nothing to the Store
(final conjunct, `cb = false`): that transition is not persisted before
control returns — the record's file is simply removed afterwards. -/
theorem transition_persist_and_log (u : Upload) (p : String) (pid : Nat)
    (msg tb : String) :
    (u.status = UploadStatus.WAITING →
        ready u p true =
          ({ u with image_path := some p, status := UploadStatus.READY },
           [{ u with image_path := some p, status := UploadStatus.READY }]) ∧
        ({ u with image_path := some p, status := UploadStatus.READY }).upload_log
          = u.upload_log) ∧
    (u.status = UploadStatus.READY →
        execute u pid TaskOutcome.success true =
          .ok ({ u with upload_pid := some pid, status := UploadStatus.FINISHED },
            [{ u with upload_pid := some pid, status := UploadStatus.RUNNING },
             { u with upload_pid := some pid, status := UploadStatus.FINISHED }]) ∧
        ({ u with upload_pid := some pid, status := UploadStatus.FINISHED }).upload_log
          = u.upload_log) ∧
    (u.status = UploadStatus.READY →
        execute u pid (TaskOutcome.failure msg tb) true =
          .ok ({ u with
                  upload_pid := some pid
                  upload_log := u.upload_log ++ (msg ++ ": " ++ tb) ++ "\n"
                  error := some msg
                  status := UploadStatus.FAILED },
            [{ u with upload_pid := some pid, status := UploadStatus.RUNNING },
             { u with
                upload_pid := some pid
                upload_log := u.upload_log ++ (msg ++ ": " ++ tb) ++ "\n"
                error := some msg
                status := UploadStatus.FAILED }])) ∧
    (is_cancellable u = true →
        cancel u true =
          .ok ({ u with status := UploadStatus.CANCELLED }, u.upload_pid.isSome,
            [{ u with status := UploadStatus.CANCELLED }]) ∧
        ({ u with status := UploadStatus.CANCELLED }).upload_log
          = u.upload_log) ∧
    (is_cancellable u = false → falsy_path u.image_path = false →
        reset u true =
          .ok ({ u with
                  error := none
                  upload_log := u.upload_log ++ "Resetting..." ++ "\n"
                  status := UploadStatus.READY },
            [{ u with
                error := none
                upload_log := u.upload_log ++ "Resetting..." ++ "\n"
                status := UploadStatus.READY }])) ∧
    (is_cancellable u = true →
        cancel u false =
          .ok ({ u with status := UploadStatus.CANCELLED },
            u.upload_pid.isSome, [])) := by
  refine ⟨?_, ?_, ?_, ?_, ?_, ?_⟩
  · intro h
    refine ⟨?_, rfl⟩
    unfold ready set_status
    rw [if_pos (show ({ u with image_path := some p } : Upload).status
      = UploadStatus.WAITING from h)]
    rfl
  · intro h
    refine ⟨?_, rfl⟩
    unfold execute set_status
    rw [if_neg (by rw [h]; exact fun hx => hx rfl)]
    rfl
  · intro h
    unfold execute set_status Upload.log_append
    rw [if_neg (by rw [h]; exact fun hx => hx rfl)]
    rfl
  · intro h
    refine ⟨?_, rfl⟩
    unfold cancel set_status
    rw [if_neg (by simp [h])]
    rfl
  · intro h1 h2
    unfold reset Upload.log_append set_status
    rw [if_neg (by simp [h1]), if_neg (by simp [h2])]
    rfl
  · intro h
    unfold cancel set_status
    rw [if_neg (by simp [h])]
    rfl

/-- C9 counterexample, refuting the claim on both counts.  Logging: the
WAITING to READY transition performed by `ready` appends nothing — the log
is exactly what it was.  Persistence: the any-to-CANCELLED transition as
performed inside `delete_upload`, which calls `upload.cancel()` with no
status callback, hands zero snapshots to the Store before returning (the
empty write list), so that transition is not persisted via the Store. -/
theorem transition_gaps_log_and_persist :
    waitingLogRec.status = UploadStatus.WAITING ∧
    (ready waitingLogRec "/tmp/x.img" true).1.status = UploadStatus.READY ∧
    (ready waitingLogRec "/tmp/x.img" true).1.upload_log
      = waitingLogRec.upload_log ∧
    runningNoCallbackRec.status = UploadStatus.RUNNING ∧
    cancel runningNoCallbackRec false
      = .ok ({ runningNoCallbackRec with status := UploadStatus.CANCELLED },
          true, []) :=
  ⟨rfl, rfl, rfl, rfl, rfl⟩

/-- Witness for `transition_persist_and_log`: resetting a concrete FAILED
record persists one snapshot and appends the "Resetting..." line. -/
theorem transition_persist_and_log_witness :
    is_cancellable failedResetRec = false ∧
    falsy_path failedResetRec.image_path = false ∧
    reset failedResetRec true =
      .ok ({ failedResetRec with
              error := none
              upload_log := failedResetRec.upload_log ++ "Resetting..." ++ "\n"
              status := UploadStatus.READY },
        [{ failedResetRec with
            error := none
            upload_log := failedResetRec.upload_log ++ "Resetting..." ++ "\n"
            status := UploadStatus.READY }]) :=
  ⟨rfl, rfl,
    (transition_persist_and_log failedResetRec "/p" 0 "m" "t").2.2.2.2.1 rfl rfl⟩

/-! Claim C10. -/

/-- C10, amended: `_get_upload_path` runs `os.chmod(path, current &
~stat.S_IROTH)` before every write, so the others-read bit is always cleared
afterwards, but every other permission bit is preserved: the owner bits, the
group bits — group-read included — the others write and execute bits, and the
setuid/setgid/sticky bits.  Read access is therefore denied only to the
"others" class; a group member who is not the owner can still read the
file. -/
theorem chmod_denies_others_read_only (current : Nat) :
    chmod_after_write current &&& S_IROTH = 0 ∧
    chmod_after_write current &&& S_IRGRP = current &&& S_IRGRP ∧
    chmod_after_write current &&& 448 = current &&& 448 ∧
    chmod_after_write current &&& 56 = current &&& 56 ∧
    chmod_after_write current &&& 3 = current &&& 3 ∧
    chmod_after_write current &&& 3584 = current &&& 3584 := by
  unfold chmod_after_write S_IROTH S_IRGRP
  refine ⟨?_, ?_, ?_, ?_, ?_, ?_⟩ <;> rw [Nat.land_assoc]
  · show current &&& 0 = 0
    simp
  · rfl
  · rfl
  · rfl
  · rfl
  · rfl

/-- C10 counterexample: the claim as stated says the permission bits after a
write deny read access to both group and others.  Start from mode 0o644
(420), the usual mode of a freshly created file under umask 022: the mode
after the chmod is 0o640 (416), in which the group-read bit 0o040 (32) is
still set, so a non-owner group member can still read the record. -/
theorem chmod_leaves_group_readable :
    chmod_after_write 420 = 416 ∧
    chmod_after_write 420 &&& S_IRGRP = 32 ∧
    (32 : Nat) ≠ 0 :=
  ⟨rfl, rfl, by decide⟩

end Lifted
